import Mathlib

/-!
Shallow embedding of `common/src/IO/Quake3ShaderFileSystem.cpp` (TrenchBroom).

The file implements a read-only synthetic file system that reconciles a
directory of textual Quake 3 shader definition files with directories of
texture images into a namespace of lazily produced shader objects.  The
pipeline is `doReadDirectory = loadShaders >>= linkShaders`, where
`linkShaders` runs `linkTextures` and then `linkStandaloneShaders`.

Modelling conventions:
* Paths are an abstract type `α` with decidable equality (witnesses use `Nat`).
* The external file system, the shader parser and `kdl::path_remove_extension`
  are collaborators outside the translated unit; they are supplied as the
  fields of `FSEnv`.
* `kdl::fold_results` over a vector of `Result` values (first error wins) is
  embedded as `foldResults` over `Except`.
* `Result<T>` becomes `Except ε T`; C++ exceptions from the parser become the
  `Except String` returned by `FSEnv.parse` (the `ParserException` message).
* Logging side effects are made explicit: functions return the list of
  `LogMsg` values they emit alongside their result.
* Registrations performed through the base-class primitive `addFile` are
  collected in an output list of `Registration` values, in call order.
-/

set_option autoImplicit false

/-- Result of `pathInfo` queries, mirroring `IO/PathInfo.h`:
a path resolves to a file, to a directory, or to nothing. -/
inductive PathInfo where
  | file
  | directory
  | missing
  deriving DecidableEq, Repr

/-- Modelled from the spec: `Assets::Quake3Shader` is not part of the
translated sources.  Per the spec's data model, a shader description is a
logical shader path (the identity key) together with a bag of shading
attributes; for shaders synthesized from a bare texture the attributes
derive solely from the texture's path, which we keep as `editorImage`. -/
structure Quake3Shader (α : Type) where
  shaderPath : α
  editorImage : Option α
  deriving DecidableEq, Repr

/-- Log messages emitted by the unit, one constructor per logging call site:
the parse-failure warning of `loadShaders`, its final info line, and the
info/debug lines bracketing linking. -/
inductive LogMsg (α : Type) where
  | warnMalformedShaderFile : α → String → LogMsg α
  | infoLoadedShaders : Nat → LogMsg α
  | infoLinkingShaders : LogMsg α
  | debugLinkingTextures : LogMsg α
  | debugLinkingStandaloneShaders : LogMsg α
  deriving DecidableEq, Repr

/-- The collaborators consumed by `Quake3ShaderFileSystem`:
* `pathInfo` is `m_fs.pathInfo` (lines 61 and 103) and, modelled from the
  spec, also the base-class `pathInfo` used at line 130 — the spec states
  that check resolves real (non-virtual) files on the underlying file
  system, so it is unaffected by registrations made during the pass;
* `findShaderFiles r` is `m_fs.find(r, TraversalMode::Flat, {".shader"})`;
* `openFile` is `m_fs.openFile` followed by buffering the reader;
* `parse` is `Quake3ShaderParser::parse`, `.error` being the thrown
  `ParserException`'s message;
* `findImages r` is `m_fs.find(r, TraversalMode::Recursive,
  {".tga", ".png", ".jpg", ".jpeg"})`;
* `removeExtension` is `kdl::path_remove_extension`. -/
structure FSEnv (α β ε : Type) where
  pathInfo : α → PathInfo
  findShaderFiles : α → Except ε (List α)
  openFile : α → Except ε β
  parse : β → Except String (List (Quake3Shader α))
  findImages : α → Except ε (List α)
  removeExtension : α → α

/-- Construction-time configuration: `m_shaderSearchPath` and
`m_textureSearchPaths`. -/
structure Config (α : Type) where
  shaderSearchPath : α
  textureSearchPaths : List α

/-- Modelled from the spec: the base-class registration primitive
`addFile(path, producer)` binds a path to a lazy content producer.  Every
producer built by this unit is a constant returning one already-known
shader description (the C++ lambdas capture a fixed `shaderFile`), so a
registration is embedded as the path together with that description. -/
structure Registration (α : Type) where
  path : α
  producer : Quake3Shader α
  deriving DecidableEq, Repr

/-- Decidable equality of results, so that the concrete environments can
be evaluated inside decidable propositions. -/
instance {ε γ : Type} [DecidableEq ε] [DecidableEq γ] :
    DecidableEq (Except ε γ) := fun x y =>
  match x, y with
  | Except.ok a, Except.ok b =>
    if h : a = b then isTrue (h ▸ rfl)
    else isFalse (fun hc => h (Except.ok.inj hc))
  | Except.ok _, Except.error _ => isFalse (fun hc => Except.noConfusion hc)
  | Except.error _, Except.ok _ => isFalse (fun hc => Except.noConfusion hc)
  | Except.error e, Except.error f =>
    if h : e = f then isTrue (h ▸ rfl)
    else isFalse (fun hc => h (Except.error.inj hc))

/-- `kdl::fold_results`: collapse a list of results into a result of a
list, failing with the first error encountered. -/
def foldResults {ε γ : Type} : List (Except ε γ) → Except ε (List γ)
  | [] => Except.ok []
  | r :: rs => r.bind fun v => (foldResults rs).map fun vs => v :: vs

variable {α β ε : Type}

/-- The `loadShaderFile` lambda of `loadShaders` (lines 66-81): open the
file (failure is a hard error), parse it, and on a `ParserException`
warn and contribute an empty list. -/
def loadShaderFile (env : FSEnv α β ε) (path : α) :
    Except ε (List (Quake3Shader α) × List (LogMsg α)) :=
  (env.openFile path).map fun file =>
    match env.parse file with
    | Except.ok shaders => (shaders, [])
    | Except.error msg => ([], [LogMsg.warnMalformedShaderFile path msg])

/-- `Quake3ShaderFileSystem::loadShaders` (lines 59-93): empty result if the
shader search path is not a directory; otherwise list the `.shader` files,
load each one, fold the results and flatten, logging the total count. -/
def loadShaders (env : FSEnv α β ε) (cfg : Config α) :
    Except ε (List (Quake3Shader α) × List (LogMsg α)) :=
  if env.pathInfo cfg.shaderSearchPath ≠ PathInfo.directory then
    Except.ok ([], [])
  else
    (env.findShaderFiles cfg.shaderSearchPath).bind fun paths =>
      (foldResults (paths.map (loadShaderFile env))).map fun results =>
        let allShaders := (results.map Prod.fst).flatten
        (allShaders,
          (results.map Prod.snd).flatten
            ++ [LogMsg.infoLoadedShaders allShaders.length])

/-- `std::find_if` over the pool followed by `shaders.erase(shaderIt)`
(lines 132-135 and 152): locate the first description whose `shaderPath`
equals `p` and return it together with the pool with that one occurrence
removed. -/
def findAndRemove [DecidableEq α] (p : α) :
    List (Quake3Shader α) → Option (Quake3Shader α × List (Quake3Shader α))
  | [] => none
  | s :: rest =>
    if s.shaderPath = p then some (s, rest)
    else
      match findAndRemove p rest with
      | some (m, rest2) => some (m, s :: rest2)
      | none => none

/-- State threaded through the `linkTextures` loop: the registrations made
so far (via `addFile`) and the current pending shader pool. -/
abbrev LinkState (α : Type) := List (Registration α) × List (Quake3Shader α)

/-- One iteration of the `linkTextures` loop (lines 125-165): strip the
texture's extension; skip when a (per the spec, real non-virtual) file
already resolves there; otherwise either claim the first matching pool
description or synthesize an implicit shader from the texture path. -/
def linkTexturesStep [DecidableEq α] (env : FSEnv α β ε)
    (st : LinkState α) (texture : α) : LinkState α :=
  let shaderPath := env.removeExtension texture
  if env.pathInfo shaderPath = PathInfo.file then st
  else
    match findAndRemove shaderPath st.2 with
    | some (shader, rest) => (st.1 ++ [⟨shaderPath, shader⟩], rest)
    | none => (st.1 ++ [⟨shaderPath, ⟨shaderPath, some texture⟩⟩], st.2)

/-- `Quake3ShaderFileSystem::linkTextures` (lines 120-166): process the
discovered textures in order, starting from an empty registration list
and the pending pool produced by `loadShaders`. -/
def linkTextures [DecidableEq α] (env : FSEnv α β ε)
    (textures : List α) (shaders : List (Quake3Shader α)) : LinkState α :=
  textures.foldl (linkTexturesStep env) ([], shaders)

/-- `Quake3ShaderFileSystem::linkStandaloneShaders` (lines 168-178): register
every remaining description at its own shader path, unconditionally — the
loop body performs no `pathInfo` query, which is why this function does not
even consume the environment. -/
def linkStandaloneShaders (shaders : List (Quake3Shader α)) :
    List (Registration α) :=
  shaders.foldl (fun regs s => regs ++ [⟨s.shaderPath, s⟩]) []

/-- `Quake3ShaderFileSystem::linkShaders` (lines 95-118): keep the texture
search paths that are directories, recursively find image files under each,
fold the results and flatten, then link textures and standalone shaders. -/
def linkShaders [DecidableEq α] (env : FSEnv α β ε) (cfg : Config α)
    (shaders : List (Quake3Shader α)) :
    Except ε (List (Registration α) × List (LogMsg α)) :=
  (foldResults
      ((cfg.textureSearchPaths.filter
          (fun p => decide (env.pathInfo p = PathInfo.directory))).map
        env.findImages)).map
    fun nestedImagePaths =>
      let allImagePaths := nestedImagePaths.flatten
      let st := linkTextures env allImagePaths shaders
      (st.1 ++ linkStandaloneShaders st.2,
        [LogMsg.infoLinkingShaders, LogMsg.debugLinkingTextures,
          LogMsg.debugLinkingStandaloneShaders])

/-- `Quake3ShaderFileSystem::doReadDirectory` (lines 54-57): load the
shaders, then link them.  The returned registrations are all the `addFile`
calls of the pass; an error result carries none, matching that every
fallible operation precedes every `addFile` call in the C++ code. -/
def doReadDirectory [DecidableEq α] (env : FSEnv α β ε) (cfg : Config α) :
    Except ε (List (Registration α) × List (LogMsg α)) :=
  (loadShaders env cfg).bind fun res =>
    (linkShaders env cfg res.1).map fun res2 => (res2.1, res.2 ++ res2.2)

/-- Concrete environment for evaluating the theorems.  Paths are numbers;
stripping the extension is division by 10 (texture 201 strips to shader
path 20).  Path 0 is the shader search root holding files 1 (valid, two
shaders) and 2 (malformed); path 100 is a texture search root with
textures 201, 71 and 252; path 7 is blocked by a pre-existing real file. -/
def envA : FSEnv Nat String String where
  pathInfo p :=
    if p = 0 ∨ p = 100 then PathInfo.directory
    else if p = 7 then PathInfo.file
    else PathInfo.missing
  findShaderFiles r :=
    if r = 0 then Except.ok [1, 2] else Except.error "listing failed"
  openFile p :=
    if p = 1 then Except.ok "good"
    else if p = 2 then Except.ok "bad"
    else Except.error "open failed"
  parse b :=
    if b = "good" then Except.ok [⟨20, none⟩, ⟨30, none⟩]
    else Except.error "malformed"
  findImages r :=
    if r = 100 then Except.ok [201, 71, 252] else Except.error "find failed"
  removeExtension t := t / 10

/-- Configuration used with `envA`: shader root 0, texture roots 100
(a directory) and 101 (missing). -/
def cfgA : Config Nat := ⟨0, [100, 101]⟩

/-- The pending pool parsed from shader file 1 of `envA`. -/
def poolA : List (Quake3Shader Nat) := [⟨20, none⟩, ⟨30, none⟩]

/-- Environment whose shader root exists but whose directory listing
fails. -/
def envB : FSEnv Nat String String where
  pathInfo p := if p = 0 then PathInfo.directory else PathInfo.missing
  findShaderFiles _ := Except.error "listing failed"
  openFile _ := Except.error "open failed"
  parse _ := Except.error "malformed"
  findImages _ := Except.error "find failed"
  removeExtension t := t / 10

/-- Configuration used with `envB`. -/
def cfgB : Config Nat := ⟨0, []⟩

/-- Environment where opening the one discovered shader file fails, and
where image discovery under the existing texture root 100 fails. -/
def envC : FSEnv Nat String String where
  pathInfo p :=
    if p = 0 ∨ p = 100 then PathInfo.directory else PathInfo.missing
  findShaderFiles r :=
    if r = 0 then Except.ok [3] else Except.error "listing failed"
  openFile _ := Except.error "open failed"
  parse _ := Except.error "malformed"
  findImages _ := Except.error "find failed"
  removeExtension t := t / 10

/-- Configuration used with `envC`: existing shader root 0 and existing
texture root 100. -/
def cfgC : Config Nat := ⟨0, [100]⟩

/-- Configuration used with `envC` whose shader root 5 is missing, so that
only texture linking can fail. -/
def cfgD : Config Nat := ⟨5, [100]⟩

/-- The per-file contribution of each shader file of `envA`:
file 1 parses to two shaders, file 2 is malformed. -/
def perFileW : Nat → List (Quake3Shader Nat) × List (LogMsg Nat) := fun p =>
  if p = 1 then ([⟨20, none⟩, ⟨30, none⟩], [])
  else ([], [LogMsg.warnMalformedShaderFile p "malformed"])

/-- The images found under each existing texture root of `envA`. -/
def imgsW : Nat → List Nat := fun p =>
  if p = 100 then [201, 71, 252] else []

/-- A pending pool holding a description at path 25, matched by the first
of two textures that both strip to 25. -/
def pool9 : List (Quake3Shader Nat) := [⟨25, none⟩, ⟨30, none⟩]

theorem foldResults_map_ok {γ δ : Type} {l : List γ} {f : γ → Except ε δ}
    {g : γ → δ} (h : ∀ x ∈ l, f x = Except.ok (g x)) :
    foldResults (l.map f) = Except.ok (l.map g) := by
  induction l with
  | nil => rfl
  | cons y ys ih =>
    have hy := h y (by simp)
    have hys := ih fun x hx => h x (by simp [hx])
    simp [foldResults, hy, hys, Except.bind, Except.map]

theorem foldResults_error_of_mem {γ δ : Type} {l : List γ} {f : γ → Except ε δ}
    {x : γ} {e : ε} (hx : x ∈ l) (hf : f x = Except.error e) :
    ∃ e2, foldResults (l.map f) = Except.error e2 := by
  induction l with
  | nil => cases hx
  | cons y ys ih =>
    rcases List.mem_cons.mp hx with rfl | hx2
    · exact ⟨e, by simp [foldResults, hf, Except.bind]⟩
    · cases hy : f y with
      | error e3 => exact ⟨e3, by simp [foldResults, hy, Except.bind]⟩
      | ok v =>
        obtain ⟨e2, h2⟩ := ih hx2
        exact ⟨e2, by simp [foldResults, hy, h2, Except.bind, Except.map]⟩

theorem findAndRemove_some [DecidableEq α] {p : α}
    {l rest : List (Quake3Shader α)} {m : Quake3Shader α}
    (h : findAndRemove p l = some (m, rest)) :
    m.shaderPath = p ∧ ∃ l1 l2, l = l1 ++ m :: l2 ∧ rest = l1 ++ l2 ∧
      ∀ x ∈ l1, x.shaderPath ≠ p := by
  induction l generalizing rest with
  | nil => simp [findAndRemove] at h
  | cons s tail ih =>
    by_cases hs : s.shaderPath = p
    · rw [findAndRemove, if_pos hs, Option.some_inj] at h
      obtain ⟨rfl, rfl⟩ := Prod.mk.injEq .. ▸ h
      exact ⟨hs, [], tail, rfl, rfl, by simp⟩
    · rw [findAndRemove, if_neg hs] at h
      cases hrec : findAndRemove p tail with
      | none => rw [hrec] at h; cases h
      | some pr =>
        obtain ⟨m2, rest2⟩ := pr
        rw [hrec, Option.some_inj] at h
        obtain ⟨rfl, rfl⟩ := Prod.mk.injEq .. ▸ h
        obtain ⟨hm, l1, l2, hl, hr, hl1⟩ := ih hrec
        exact ⟨hm, s :: l1, l2, by simp [hl], by simp [hr],
          by simpa [hs] using hl1⟩

theorem findAndRemove_eq_none [DecidableEq α] {p : α}
    {l : List (Quake3Shader α)} :
    findAndRemove p l = none ↔ ∀ x ∈ l, x.shaderPath ≠ p := by
  induction l with
  | nil => simp [findAndRemove]
  | cons s tail ih =>
    by_cases hs : s.shaderPath = p
    · simp [findAndRemove, hs]
    · rw [findAndRemove, if_neg hs]
      cases hrec : findAndRemove p tail with
      | none =>
        exact iff_of_true rfl (List.forall_mem_cons.mpr ⟨hs, ih.mp hrec⟩)
      | some pr =>
        obtain ⟨m, rest⟩ := pr
        obtain ⟨hm, l1, l2, hl, -, -⟩ := findAndRemove_some hrec
        refine iff_of_false (by simp) ?_
        intro hall
        exact hall m (by simp [hl]) hm

theorem linkTexturesStep_skip [DecidableEq α] (env : FSEnv α β ε)
    (st : LinkState α) (t : α)
    (h : env.pathInfo (env.removeExtension t) = PathInfo.file) :
    linkTexturesStep env st t = st := by
  simp [linkTexturesStep, h]

theorem linkTexturesStep_match [DecidableEq α] (env : FSEnv α β ε)
    (st : LinkState α) (t : α) (s : Quake3Shader α)
    (rest : List (Quake3Shader α))
    (h1 : env.pathInfo (env.removeExtension t) ≠ PathInfo.file)
    (h2 : findAndRemove (env.removeExtension t) st.2 = some (s, rest)) :
    linkTexturesStep env st t = (st.1 ++ [⟨env.removeExtension t, s⟩], rest) := by
  simp [linkTexturesStep, h1, h2]

theorem linkTexturesStep_synth [DecidableEq α] (env : FSEnv α β ε)
    (st : LinkState α) (t : α)
    (h1 : env.pathInfo (env.removeExtension t) ≠ PathInfo.file)
    (h2 : ∀ x ∈ st.2, x.shaderPath ≠ env.removeExtension t) :
    linkTexturesStep env st t =
      (st.1 ++ [⟨env.removeExtension t,
        ⟨env.removeExtension t, some t⟩⟩], st.2) := by
  simp [linkTexturesStep, h1, findAndRemove_eq_none.mpr h2]

theorem linkTexturesStep_pool_sublist [DecidableEq α] (env : FSEnv α β ε)
    (st : LinkState α) (t : α) :
    (linkTexturesStep env st t).2.Sublist st.2 := by
  by_cases h : env.pathInfo (env.removeExtension t) = PathInfo.file
  · simp [linkTexturesStep_skip env st t h]
  · cases hrec : findAndRemove (env.removeExtension t) st.2 with
    | none => simp [linkTexturesStep, h, hrec]
    | some pr =>
      obtain ⟨m, rest⟩ := pr
      obtain ⟨-, l1, l2, hl, hr, -⟩ := findAndRemove_some hrec
      rw [linkTexturesStep_match env st t m rest h hrec]
      rw [hr, hl]
      exact List.Sublist.append_left (List.sublist_cons_self m l2) l1

theorem foldl_pool_sublist [DecidableEq α] (env : FSEnv α β ε)
    (ts : List α) (st : LinkState α) :
    (List.foldl (linkTexturesStep env) st ts).2.Sublist st.2 := by
  induction ts generalizing st with
  | nil => simp
  | cons t ts ih =>
    rw [List.foldl_cons]
    exact (ih (linkTexturesStep env st t)).trans
      (linkTexturesStep_pool_sublist env st t)

theorem linkTexturesStep_regs_extend [DecidableEq α] (env : FSEnv α β ε)
    (st : LinkState α) (t : α) :
    ∃ l, (linkTexturesStep env st t).1 = st.1 ++ l := by
  by_cases h : env.pathInfo (env.removeExtension t) = PathInfo.file
  · exact ⟨[], by simp [linkTexturesStep_skip env st t h]⟩
  · cases hrec : findAndRemove (env.removeExtension t) st.2 with
    | none =>
      exact ⟨[⟨env.removeExtension t, ⟨env.removeExtension t, some t⟩⟩],
        by simp [linkTexturesStep, h, hrec]⟩
    | some pr =>
      exact ⟨[⟨env.removeExtension t, pr.1⟩],
        by simp [linkTexturesStep, h, hrec]⟩

theorem foldl_regs_extend [DecidableEq α] (env : FSEnv α β ε)
    (ts : List α) (st : LinkState α) :
    ∃ l, (List.foldl (linkTexturesStep env) st ts).1 = st.1 ++ l := by
  induction ts generalizing st with
  | nil => exact ⟨[], by simp⟩
  | cons t ts ih =>
    obtain ⟨l, hl⟩ := ih (linkTexturesStep env st t)
    obtain ⟨l0, h0⟩ := linkTexturesStep_regs_extend env st t
    exact ⟨l0 ++ l, by rw [List.foldl_cons, hl, h0, List.append_assoc]⟩

theorem linkTexturesStep_regs_mem [DecidableEq α] (env : FSEnv α β ε)
    (st : LinkState α) (t : α) (r : Registration α)
    (hr : r ∈ (linkTexturesStep env st t).1) :
    r ∈ st.1 ∨ (r.path = env.removeExtension t ∧
      env.pathInfo r.path ≠ PathInfo.file) := by
  by_cases h : env.pathInfo (env.removeExtension t) = PathInfo.file
  · rw [linkTexturesStep_skip env st t h] at hr
    exact Or.inl hr
  · cases hrec : findAndRemove (env.removeExtension t) st.2 with
    | none =>
      have he : (linkTexturesStep env st t).1 =
          st.1 ++ [⟨env.removeExtension t, ⟨env.removeExtension t, some t⟩⟩] := by
        simp [linkTexturesStep, h, hrec]
      rw [he] at hr
      rcases List.mem_append.mp hr with h1 | h2
      · exact Or.inl h1
      · simp only [List.mem_singleton] at h2
        subst h2
        exact Or.inr ⟨rfl, h⟩
    | some pr =>
      have he : (linkTexturesStep env st t).1 =
          st.1 ++ [⟨env.removeExtension t, pr.1⟩] := by
        simp [linkTexturesStep, h, hrec]
      rw [he] at hr
      rcases List.mem_append.mp hr with h1 | h2
      · exact Or.inl h1
      · simp only [List.mem_singleton] at h2
        subst h2
        exact Or.inr ⟨rfl, h⟩

theorem foldl_regs_mem [DecidableEq α] (env : FSEnv α β ε)
    (ts : List α) (st : LinkState α) (r : Registration α)
    (hr : r ∈ (List.foldl (linkTexturesStep env) st ts).1) :
    r ∈ st.1 ∨ env.pathInfo r.path ≠ PathInfo.file := by
  induction ts generalizing st with
  | nil => exact Or.inl (by simpa using hr)
  | cons t ts ih =>
    rw [List.foldl_cons] at hr
    rcases ih (linkTexturesStep env st t) hr with hmem | hnf
    · rcases linkTexturesStep_regs_mem env st t r hmem with h1 | h2
      · exact Or.inl h1
      · exact Or.inr h2.2
    · exact Or.inr hnf

theorem linkStandaloneShaders_foldl {α : Type} (shaders : List (Quake3Shader α))
    (init : List (Registration α)) :
    List.foldl (fun regs s => regs ++ [⟨s.shaderPath, s⟩]) init shaders =
      init ++ shaders.map (fun s => (⟨s.shaderPath, s⟩ : Registration α)) := by
  induction shaders generalizing init with
  | nil => simp
  | cons s tail ih => simp [List.foldl_cons, ih]

theorem removed_was_matched [DecidableEq α] (env : FSEnv α β ε)
    (ts : List α) (st : LinkState α) (s : Quake3Shader α)
    (hs : s ∈ st.2) (hout : s ∉ (List.foldl (linkTexturesStep env) st ts).2) :
    ∃ t ∈ ts, s.shaderPath = env.removeExtension t ∧
      env.pathInfo s.shaderPath ≠ PathInfo.file := by
  induction ts generalizing st with
  | nil => exact absurd hs (by simpa using hout)
  | cons t ts ih =>
    rw [List.foldl_cons] at hout
    by_cases hmem : s ∈ (linkTexturesStep env st t).2
    · obtain ⟨t2, ht2, h2⟩ := ih (linkTexturesStep env st t) hmem hout
      exact ⟨t2, List.mem_cons_of_mem t ht2, h2⟩
    · refine ⟨t, List.mem_cons_self t ts, ?_⟩
      by_cases h : env.pathInfo (env.removeExtension t) = PathInfo.file
      · rw [linkTexturesStep_skip env st t h] at hmem
        exact absurd hs hmem
      · cases hrec : findAndRemove (env.removeExtension t) st.2 with
        | none =>
          have heq : (linkTexturesStep env st t).2 = st.2 := by
            simp [linkTexturesStep, h, hrec]
          rw [heq] at hmem
          exact absurd hs hmem
        | some pr =>
          obtain ⟨m, rest⟩ := pr
          have h2 : (linkTexturesStep env st t).2 = rest := by
            rw [linkTexturesStep_match env st t m rest h hrec]
          obtain ⟨hm, l1, l2, hl, hr, -⟩ := findAndRemove_some hrec
          rw [h2, hr] at hmem
          rw [hl] at hs
          have hsm : s = m := by
            rcases List.mem_append.mp hs with h1 | hcons
            · exact absurd (List.mem_append_left l2 h1) hmem
            · rcases List.mem_cons.mp hcons with rfl | hin
              · rfl
              · exact absurd (List.mem_append_right l1 hin) hmem
          subst hsm
          exact ⟨hm, by rw [hm]; exact h⟩

theorem loadShaders_ok_of_files (env : FSEnv α β ε) (cfg : Config α)
    (paths : List α)
    (perFile : α → List (Quake3Shader α) × List (LogMsg α))
    (hdir : env.pathInfo cfg.shaderSearchPath = PathInfo.directory)
    (hfind : env.findShaderFiles cfg.shaderSearchPath = Except.ok paths)
    (hall : ∀ p ∈ paths, loadShaderFile env p = Except.ok (perFile p)) :
    loadShaders env cfg = Except.ok
      ((paths.map fun p => (perFile p).1).flatten,
        (paths.map fun p => (perFile p).2).flatten
          ++ [LogMsg.infoLoadedShaders
              (paths.map fun p => (perFile p).1).flatten.length]) := by
  unfold loadShaders
  rw [if_neg (by simp [hdir]), hfind]
  have hok := foldResults_map_ok hall
  simp [Except.bind, Except.map, hok, List.map_map, Function.comp]
  exact ⟨rfl, rfl⟩

/-- C1: during texture linking, a discovered texture whose candidate shader
path (the texture path with its extension stripped) already resolves to a
real (non-virtual) file is skipped entirely: its loop iteration leaves both
the registrations and the pending pool untouched, and over a whole
`linkTextures` run no namespace entry is ever registered at that path. -/
theorem linkTextures_skips_blocked_paths [DecidableEq α] (env : FSEnv α β ε)
    (t : α) (textures : List α) (shaders : List (Quake3Shader α))
    (st : LinkState α)
    (h : env.pathInfo (env.removeExtension t) = PathInfo.file) :
    linkTexturesStep env st t = st ∧
      ∀ r ∈ (linkTextures env textures shaders).1,
        r.path ≠ env.removeExtension t := by
  refine ⟨linkTexturesStep_skip env st t h, fun r hr hrp => ?_⟩
  rcases foldl_regs_mem env textures ([], shaders) r hr with h1 | h2
  · simp at h1
  · exact h2 (by rw [hrp]; exact h)

/-- Witness for C1 at `envA`: texture 71 strips to path 7, where a real
file resolves; it is skipped and nothing gets registered at path 7. -/
theorem linkTextures_skips_blocked_paths_witness :
    envA.pathInfo (envA.removeExtension 71) = PathInfo.file ∧
      (linkTexturesStep envA ([], poolA) 71 = ([], poolA) ∧
        ∀ r ∈ (linkTextures envA [201, 71, 252] poolA).1,
          r.path ≠ envA.removeExtension 71) :=
  ⟨by decide,
    linkTextures_skips_blocked_paths envA 71 [201, 71, 252] poolA
      ([], poolA) (by decide)⟩

/-- C2: a texture that is not blocked by a real file and whose stripped
path is the shader path of some pending description removes the first such
description from the pool and appends exactly one registration, at the
candidate path, whose producer is that same already-parsed description. -/
theorem linkTexturesStep_match_links_parsed_shader [DecidableEq α]
    (env : FSEnv α β ε) (st : LinkState α) (t : α) (s : Quake3Shader α)
    (rest : List (Quake3Shader α))
    (h1 : env.pathInfo (env.removeExtension t) ≠ PathInfo.file)
    (h2 : findAndRemove (env.removeExtension t) st.2 = some (s, rest)) :
    linkTexturesStep env st t =
        (st.1 ++ [⟨env.removeExtension t, s⟩], rest) ∧
      s.shaderPath = env.removeExtension t ∧ s ∈ st.2 ∧
      ∃ l1 l2, st.2 = l1 ++ s :: l2 ∧ rest = l1 ++ l2 ∧
        ∀ x ∈ l1, x.shaderPath ≠ env.removeExtension t := by
  obtain ⟨hm, l1, l2, hl, hr, hl1⟩ := findAndRemove_some h2
  exact ⟨linkTexturesStep_match env st t s rest h1 h2, hm,
    by rw [hl]; simp, l1, l2, hl, hr, hl1⟩

/-- Witness for C2 at `envA`: texture 201 strips to path 20, matching the
parsed description at path 20, which is claimed and registered as-is. -/
theorem linkTexturesStep_match_links_parsed_shader_witness :
    (envA.pathInfo (envA.removeExtension 201) ≠ PathInfo.file ∧
      findAndRemove (envA.removeExtension 201)
        (([], poolA) : LinkState Nat).2 = some (⟨20, none⟩, [⟨30, none⟩])) ∧
    linkTexturesStep envA ([], poolA) 201 =
      (([] : List (Registration Nat)) ++
        [⟨envA.removeExtension 201, ⟨20, none⟩⟩], [⟨30, none⟩]) :=
  ⟨⟨by decide, by decide⟩,
    (linkTexturesStep_match_links_parsed_shader envA ([], poolA) 201
      ⟨20, none⟩ [⟨30, none⟩] (by decide) (by decide)).1⟩

/-- C3: a texture that is not blocked by a real file and matches no pending
description appends exactly one registration at the stripped path, whose
producer is a shader synthesized from the texture path alone, and leaves
the pending pool unchanged (the synthesized description is not pooled). -/
theorem linkTexturesStep_no_match_synthesizes [DecidableEq α]
    (env : FSEnv α β ε) (st : LinkState α) (t : α)
    (h1 : env.pathInfo (env.removeExtension t) ≠ PathInfo.file)
    (h2 : ∀ x ∈ st.2, x.shaderPath ≠ env.removeExtension t) :
    linkTexturesStep env st t =
      (st.1 ++ [⟨env.removeExtension t,
        ⟨env.removeExtension t, some t⟩⟩], st.2) :=
  linkTexturesStep_synth env st t h1 h2

/-- Witness for C3 at `envA`: texture 252 strips to path 25, matching no
pool description; a shader derived from 252 is registered and the pool is
unchanged. -/
theorem linkTexturesStep_no_match_synthesizes_witness :
    (envA.pathInfo (envA.removeExtension 252) ≠ PathInfo.file ∧
      ∀ x ∈ (([], poolA) : LinkState Nat).2,
        x.shaderPath ≠ envA.removeExtension 252) ∧
    linkTexturesStep envA ([], poolA) 252 =
      (([] : List (Registration Nat)) ++
        [⟨envA.removeExtension 252, ⟨envA.removeExtension 252, some 252⟩⟩],
        poolA) :=
  ⟨⟨by decide, by decide⟩,
    linkTexturesStep_no_match_synthesizes envA ([], poolA) 252
      (by decide) (by decide)⟩

/-- C4: the standalone linker registers one namespace entry per remaining
pool description, at that description's own shader path, with a producer
returning that description.  The registration is unconditional: the
definition consumes no environment at all, so no existence check against
any file system can influence it. -/
theorem linkStandaloneShaders_registers_all_unconditionally
    (shaders : List (Quake3Shader α)) :
    linkStandaloneShaders shaders =
      shaders.map (fun s => (⟨s.shaderPath, s⟩ : Registration α)) := by
  unfold linkStandaloneShaders
  rw [linkStandaloneShaders_foldl]
  simp

/-- C5: a parse failure in one shader file yields a warning naming that
file and the failure message, an empty contribution from that file, and
does not abort the load: when every file opens, `loadShaders` still
succeeds, its shader list is the flattening of all per-file contributions
(so other files' shaders survive), and the warning is among the logs. -/
theorem loadShaders_parse_failure_isolated (env : FSEnv α β ε)
    (cfg : Config α) (paths : List α) (b : α) (buf : β) (msg : String)
    (perFile : α → List (Quake3Shader α) × List (LogMsg α))
    (hdir : env.pathInfo cfg.shaderSearchPath = PathInfo.directory)
    (hfind : env.findShaderFiles cfg.shaderSearchPath = Except.ok paths)
    (hb : b ∈ paths)
    (hopen : env.openFile b = Except.ok buf)
    (hparse : env.parse buf = Except.error msg)
    (hall : ∀ p ∈ paths, loadShaderFile env p = Except.ok (perFile p)) :
    loadShaderFile env b =
        Except.ok ([], [LogMsg.warnMalformedShaderFile b msg]) ∧
      perFile b = ([], [LogMsg.warnMalformedShaderFile b msg]) ∧
      loadShaders env cfg = Except.ok
        ((paths.map fun p => (perFile p).1).flatten,
          (paths.map fun p => (perFile p).2).flatten
            ++ [LogMsg.infoLoadedShaders
                (paths.map fun p => (perFile p).1).flatten.length]) ∧
      LogMsg.warnMalformedShaderFile b msg ∈
        (paths.map fun p => (perFile p).2).flatten := by
  have h1 : loadShaderFile env b =
      Except.ok ([], [LogMsg.warnMalformedShaderFile b msg]) := by
    unfold loadShaderFile
    rw [hopen]
    simp [Except.map, hparse]
  have h2 : perFile b = ([], [LogMsg.warnMalformedShaderFile b msg]) :=
    Except.ok.inj ((hall b hb).symm.trans h1)
  refine ⟨h1, h2, loadShaders_ok_of_files env cfg paths perFile hdir hfind hall, ?_⟩
  exact List.mem_flatten.mpr
    ⟨(perFile b).2, List.mem_map_of_mem _ hb, by rw [h2]; simp⟩

/-- Witness for C5 at `envA`: shader file 2 is malformed; file 1's two
shaders survive and the warning about file 2 is logged. -/
theorem loadShaders_parse_failure_isolated_witness :
    (envA.pathInfo cfgA.shaderSearchPath = PathInfo.directory ∧
      envA.findShaderFiles cfgA.shaderSearchPath = Except.ok [1, 2] ∧
      2 ∈ [1, 2] ∧ envA.openFile 2 = Except.ok "bad" ∧
      envA.parse "bad" = Except.error "malformed" ∧
      ∀ p ∈ [1, 2], loadShaderFile envA p = Except.ok (perFileW p)) ∧
    (loadShaderFile envA 2 =
        Except.ok ([], [LogMsg.warnMalformedShaderFile 2 "malformed"]) ∧
      perFileW 2 = ([], [LogMsg.warnMalformedShaderFile 2 "malformed"]) ∧
      loadShaders envA cfgA = Except.ok
        (([1, 2].map fun p => (perFileW p).1).flatten,
          ([1, 2].map fun p => (perFileW p).2).flatten
            ++ [LogMsg.infoLoadedShaders
                (([1, 2].map fun p => (perFileW p).1).flatten.length)]) ∧
      LogMsg.warnMalformedShaderFile 2 "malformed" ∈
        ([1, 2].map fun p => (perFileW p).2).flatten) :=
  ⟨⟨by decide, by decide, by decide, by decide, by decide, by decide⟩,
    loadShaders_parse_failure_isolated envA cfgA [1, 2] 2 "bad" "malformed"
      perFileW (by decide) (by decide) (by decide) (by decide) (by decide)
      (by decide)⟩

/-- C6: when the shader search root is not a directory, `loadShaders`
succeeds with an empty shader collection (and, the early return preceding
all logging, an empty log). -/
theorem loadShaders_missing_root_ok (env : FSEnv α β ε) (cfg : Config α)
    (h : env.pathInfo cfg.shaderSearchPath ≠ PathInfo.directory) :
    loadShaders env cfg = Except.ok ([], []) := by
  unfold loadShaders
  rw [if_pos h]

/-- Witness for C6 at `envA` with a missing shader root 5. -/
theorem loadShaders_missing_root_ok_witness :
    envA.pathInfo (Config.shaderSearchPath ⟨5, []⟩) ≠ PathInfo.directory ∧
      loadShaders envA ⟨5, []⟩ = Except.ok ([], []) :=
  ⟨by decide, loadShaders_missing_root_ok envA ⟨5, []⟩ (by decide)⟩

/-- C7: every failure other than a per-file parse error propagates as a
hard error for the whole directory read: (1) a listing failure on an
existing shader root, (2) a failure to open a discovered shader file,
(3) an image-discovery failure on an existing texture root fails
`linkShaders`, and (4) the same failure fails `doReadDirectory` when
loading itself succeeded.  The model's error results carry no
registrations, matching that all `addFile` calls happen after every
fallible operation. -/
theorem doReadDirectory_hard_errors_propagate [DecidableEq α]
    (env : FSEnv α β ε) (cfg : Config α) :
    (∀ e, env.pathInfo cfg.shaderSearchPath = PathInfo.directory →
      env.findShaderFiles cfg.shaderSearchPath = Except.error e →
      doReadDirectory env cfg = Except.error e) ∧
    (∀ paths p e, env.pathInfo cfg.shaderSearchPath = PathInfo.directory →
      env.findShaderFiles cfg.shaderSearchPath = Except.ok paths →
      p ∈ paths → env.openFile p = Except.error e →
      ∃ e2, doReadDirectory env cfg = Except.error e2) ∧
    (∀ shaders r e, r ∈ cfg.textureSearchPaths →
      env.pathInfo r = PathInfo.directory →
      env.findImages r = Except.error e →
      ∃ e2, linkShaders env cfg shaders = Except.error e2) ∧
    (∀ shaders logs r e, loadShaders env cfg = Except.ok (shaders, logs) →
      r ∈ cfg.textureSearchPaths → env.pathInfo r = PathInfo.directory →
      env.findImages r = Except.error e →
      ∃ e2, doReadDirectory env cfg = Except.error e2) := by
  have hc3 : ∀ (shaders : List (Quake3Shader α)) r e,
      r ∈ cfg.textureSearchPaths → env.pathInfo r = PathInfo.directory →
      env.findImages r = Except.error e →
      ∃ e2, linkShaders env cfg shaders = Except.error e2 := by
    intro shaders r e hr hdir himg
    have hmem : r ∈ cfg.textureSearchPaths.filter
        (fun p => decide (env.pathInfo p = PathInfo.directory)) :=
      List.mem_filter.mpr ⟨hr, by simp [hdir]⟩
    obtain ⟨e2, h2⟩ := foldResults_error_of_mem hmem himg
    refine ⟨e2, ?_⟩
    unfold linkShaders
    rw [h2]
    rfl
  refine ⟨?_, ?_, hc3, ?_⟩
  · intro e hdir herr
    have hl : loadShaders env cfg = Except.error e := by
      unfold loadShaders
      rw [if_neg (by simp [hdir]), herr]
      rfl
    unfold doReadDirectory
    rw [hl]
    rfl
  · intro paths p e hdir hfind hp hopen
    have hfile : loadShaderFile env p = Except.error e := by
      unfold loadShaderFile
      rw [hopen]
      rfl
    obtain ⟨e2, h2⟩ := foldResults_error_of_mem hp hfile
    refine ⟨e2, ?_⟩
    have hl : loadShaders env cfg = Except.error e2 := by
      unfold loadShaders
      rw [if_neg (by simp [hdir]), hfind]
      simp [Except.bind, h2, Except.map]
    unfold doReadDirectory
    rw [hl]
    rfl
  · intro shaders logs r e hload hr hdir himg
    obtain ⟨e2, h2⟩ := hc3 shaders r e hr hdir himg
    refine ⟨e2, ?_⟩
    unfold doReadDirectory
    rw [hload]
    simp [Except.bind, h2, Except.map]

/-- Witness for C7: a listing failure (`envB`), an open failure (`envC`
with root 0), an image-discovery failure on existing root 100 (`envC`),
and the latter propagated through `doReadDirectory` when the shader root
is missing (`cfgD`). -/
theorem doReadDirectory_hard_errors_propagate_witness :
    doReadDirectory envB cfgB = Except.error "listing failed" ∧
      (∃ e2, doReadDirectory envC cfgC = Except.error e2) ∧
      (∃ e2, linkShaders envC cfgC ([] : List (Quake3Shader Nat)) =
        Except.error e2) ∧
      (∃ e2, doReadDirectory envC cfgD = Except.error e2) :=
  ⟨(doReadDirectory_hard_errors_propagate envB cfgB).1 "listing failed"
      (by decide) (by decide),
    (doReadDirectory_hard_errors_propagate envC cfgC).2.1 [3] 3
      "open failed" (by decide) (by decide) (by decide) (by decide),
    (doReadDirectory_hard_errors_propagate envC cfgC).2.2.1 [] 100
      "find failed" (by decide) (by decide) (by decide),
    (doReadDirectory_hard_errors_propagate envC cfgD).2.2.2 [] [] 100
      "find failed" (by decide) (by decide) (by decide) (by decide)⟩

/-- C8: a configured texture search root that is not a directory is
silently skipped — `linkShaders` behaves exactly as if that root were
absent — and when image discovery succeeds on every existing root, the
operation succeeds with the discovered image paths of all existing roots
flattened into the single texture-path list fed to `linkTextures`. -/
theorem linkShaders_skips_missing_roots [DecidableEq α] (env : FSEnv α β ε)
    (sp r : α) (roots : List α) (shaders : List (Quake3Shader α))
    (imgs : α → List α)
    (h : env.pathInfo r ≠ PathInfo.directory)
    (hfinds : ∀ p ∈ roots.filter
        (fun p => decide (env.pathInfo p = PathInfo.directory)),
      env.findImages p = Except.ok (imgs p)) :
    linkShaders env ⟨sp, roots⟩ shaders =
        linkShaders env ⟨sp, roots.filter (fun x => decide (x ≠ r))⟩ shaders ∧
      linkShaders env ⟨sp, roots⟩ shaders = Except.ok
        ((linkTextures env
            ((roots.filter
              (fun p => decide (env.pathInfo p = PathInfo.directory))).map
                imgs).flatten shaders).1
          ++ linkStandaloneShaders
            (linkTextures env
              ((roots.filter
                (fun p => decide (env.pathInfo p = PathInfo.directory))).map
                  imgs).flatten shaders).2,
          [LogMsg.infoLinkingShaders, LogMsg.debugLinkingTextures,
            LogMsg.debugLinkingStandaloneShaders]) := by
  have hfe : roots.filter
      (fun p => decide (env.pathInfo p = PathInfo.directory)) =
      (roots.filter (fun x => decide (x ≠ r))).filter
        (fun p => decide (env.pathInfo p = PathInfo.directory)) := by
    rw [List.filter_filter]
    apply List.filter_congr
    intro x hx
    by_cases hxr : x = r
    · subst hxr
      simp [h]
    · simp [hxr]
  constructor
  · unfold linkShaders
    simp only []
    rw [hfe]
  · unfold linkShaders
    simp only []
    rw [foldResults_map_ok hfinds]
    rfl

/-- Witness for C8 at `envA`: texture root 101 is missing among the
configured roots, yet linking equals linking with root 101 dropped. -/
theorem linkShaders_skips_missing_roots_witness :
    (envA.pathInfo 101 ≠ PathInfo.directory ∧
      ∀ p ∈ [100, 101].filter
          (fun p => decide (envA.pathInfo p = PathInfo.directory)),
        envA.findImages p = Except.ok (imgsW p)) ∧
    linkShaders envA ⟨0, [100, 101]⟩ poolA =
      linkShaders envA ⟨0, [100, 101].filter (fun x => decide (x ≠ 101))⟩
        poolA :=
  ⟨⟨by decide, by decide⟩,
    (linkShaders_skips_missing_roots envA 0 101 [100, 101] poolA imgsW
      (by decide) (by decide)).1⟩

/-- C9: textures are processed sequentially in discovery order (the run
over `l1 ++ t1 :: l2 ++ [t2]` is the fold of the runs over the pieces);
when `t1` and a later `t2` strip to the same unblocked path, `t1` claims
the matching pool description; by the time `t2` is processed the pool has
no match left, so `t2` registers a synthesized entry at a path whose
earlier registration (from `t1`) is already present — a collision. -/
theorem linkTextures_first_texture_wins [DecidableEq α] (env : FSEnv α β ε)
    (l1 l2 : List α) (t1 t2 : α) (shaders : List (Quake3Shader α))
    (s : Quake3Shader α) (rest : List (Quake3Shader α)) (A B : LinkState α)
    (hA : A = linkTextures env l1 shaders)
    (hB : B = List.foldl (linkTexturesStep env) (linkTexturesStep env A t1) l2)
    (h12 : env.removeExtension t2 = env.removeExtension t1)
    (hnf : env.pathInfo (env.removeExtension t1) ≠ PathInfo.file)
    (hfind : findAndRemove (env.removeExtension t1) A.2 = some (s, rest))
    (huniq : ∀ x ∈ rest, x.shaderPath ≠ env.removeExtension t1) :
    linkTexturesStep env A t1 =
        (A.1 ++ [⟨env.removeExtension t1, s⟩], rest) ∧
      findAndRemove (env.removeExtension t1) B.2 = none ∧
      linkTexturesStep env B t2 =
        (B.1 ++ [⟨env.removeExtension t1,
          ⟨env.removeExtension t1, some t2⟩⟩], B.2) ∧
      (⟨env.removeExtension t1, s⟩ : Registration α) ∈ B.1 ∧
      linkTextures env (l1 ++ t1 :: l2 ++ [t2]) shaders =
        linkTexturesStep env B t2 := by
  have hstep1 := linkTexturesStep_match env A t1 s rest hnf hfind
  have hpool : ∀ x ∈ B.2, x.shaderPath ≠ env.removeExtension t1 := by
    intro x hx
    rw [hB] at hx
    have hsub := foldl_pool_sublist env l2 (linkTexturesStep env A t1)
    have hx2 := hsub.subset hx
    rw [hstep1] at hx2
    exact huniq x hx2
  have hnone := findAndRemove_eq_none.mpr hpool
  have hstep2 : linkTexturesStep env B t2 =
      (B.1 ++ [⟨env.removeExtension t1,
        ⟨env.removeExtension t1, some t2⟩⟩], B.2) := by
    have hsynth := linkTexturesStep_synth env B t2
      (by rw [h12]; exact hnf)
      (by rw [h12]; exact hpool)
    rw [h12] at hsynth
    exact hsynth
  have hmem : (⟨env.removeExtension t1, s⟩ : Registration α) ∈ B.1 := by
    obtain ⟨l, hl⟩ := foldl_regs_extend env l2 (linkTexturesStep env A t1)
    rw [hB, hl, hstep1]
    simp
  refine ⟨hstep1, hnone, hstep2, hmem, ?_⟩
  unfold linkTextures
  rw [List.foldl_append, List.foldl_cons, List.foldl_append, hB, hA]
  unfold linkTextures
  simp [List.foldl_cons]

/-- Witness for C9 at `envA`: textures 252 and 251 both strip to path 25;
252 claims the pool description at 25, then 251 finds no match and
collides with a second registration at 25. -/
theorem linkTextures_first_texture_wins_witness :
    ((([], pool9) : LinkState Nat) = linkTextures envA [] pool9 ∧
      (([⟨25, ⟨25, none⟩⟩], [⟨30, none⟩]) : LinkState Nat) =
        List.foldl (linkTexturesStep envA)
          (linkTexturesStep envA (([], pool9) : LinkState Nat) 252) [] ∧
      envA.removeExtension 251 = envA.removeExtension 252 ∧
      envA.pathInfo (envA.removeExtension 252) ≠ PathInfo.file ∧
      findAndRemove (envA.removeExtension 252)
        (([], pool9) : LinkState Nat).2 = some (⟨25, none⟩, [⟨30, none⟩]) ∧
      ∀ x ∈ [(⟨30, none⟩ : Quake3Shader Nat)],
        x.shaderPath ≠ envA.removeExtension 252) ∧
    (findAndRemove (envA.removeExtension 252)
        ((([⟨25, ⟨25, none⟩⟩], [⟨30, none⟩]) : LinkState Nat)).2 = none ∧
      (⟨envA.removeExtension 252, ⟨25, none⟩⟩ : Registration Nat) ∈
        (([⟨25, ⟨25, none⟩⟩], [⟨30, none⟩]) : LinkState Nat).1 ∧
      linkTextures envA ([] ++ 252 :: [] ++ [251]) pool9 =
        linkTexturesStep envA
          (([⟨25, ⟨25, none⟩⟩], [⟨30, none⟩]) : LinkState Nat) 251) :=
  ⟨⟨by decide, by decide, by decide, by decide, by decide, by decide⟩,
    (linkTextures_first_texture_wins envA [] [] 252 251 pool9 ⟨25, none⟩
      [⟨30, none⟩] ([], pool9) ([⟨25, ⟨25, none⟩⟩], [⟨30, none⟩])
      (by decide) (by decide) (by decide) (by decide) (by decide)
      (by decide)).2.1,
    (linkTextures_first_texture_wins envA [] [] 252 251 pool9 ⟨25, none⟩
      [⟨30, none⟩] ([], pool9) ([⟨25, ⟨25, none⟩⟩], [⟨30, none⟩])
      (by decide) (by decide) (by decide) (by decide) (by decide)
      (by decide)).2.2.2.1,
    (linkTextures_first_texture_wins envA [] [] 252 251 pool9 ⟨25, none⟩
      [⟨30, none⟩] ([], pool9) ([⟨25, ⟨25, none⟩⟩], [⟨30, none⟩])
      (by decide) (by decide) (by decide) (by decide) (by decide)
      (by decide)).2.2.2.2⟩

/-- C10: texture linking only removes pool elements: the pool after
`linkTextures` is a sublist of the input pool (so survivors are unmodified
and in order, and nothing was added), and every description no longer
present was matched by some processed texture — its shader path is the
stripped path of a texture, and that path was not blocked by a real
file. -/
theorem linkTextures_pool_only_shrinks [DecidableEq α] (env : FSEnv α β ε)
    (textures : List α) (shaders : List (Quake3Shader α)) :
    (linkTextures env textures shaders).2.Sublist shaders ∧
      ∀ s ∈ shaders, s ∉ (linkTextures env textures shaders).2 →
        ∃ t ∈ textures, s.shaderPath = env.removeExtension t ∧
          env.pathInfo s.shaderPath ≠ PathInfo.file :=
  ⟨foldl_pool_sublist env textures ([], shaders),
    fun s hs hout => removed_was_matched env textures ([], shaders) s hs hout⟩

/-- Witness for C10 at `envA`: the description at path 20 left the pool,
and indeed texture 201 strips to its path 20, which is unblocked. -/
theorem linkTextures_pool_only_shrinks_witness :
    ((⟨20, none⟩ : Quake3Shader Nat) ∈ poolA ∧
      (⟨20, none⟩ : Quake3Shader Nat) ∉
        (linkTextures envA [201, 71, 252] poolA).2) ∧
    ∃ t ∈ [201, 71, 252],
      (⟨20, none⟩ : Quake3Shader Nat).shaderPath = envA.removeExtension t ∧
        envA.pathInfo (⟨20, none⟩ : Quake3Shader Nat).shaderPath ≠
          PathInfo.file :=
  ⟨⟨by decide, by decide⟩,
    (linkTextures_pool_only_shrinks envA [201, 71, 252] poolA).2
      ⟨20, none⟩ (by decide) (by decide)⟩
